import Mathlib

/-!
Shallow embedding of the scoring engine of the microbiome dashboard
(`src/app.py`): genus resolution, the genus-trait priors, the species trait
table, the nutrient model, `absorption_score`, `simulate_addition` and the
percent-change computation of the simulation page.

Python floats are modelled by exact rationals; an abundance cell is `null`
(Python `None`), `nan` (a non-numeric cell coerced by `pd.to_numeric`), or a
rational value.  Python dicts are modelled as association lists (iteration
order is the list order; a well-formed dict has no duplicate keys, but none
of the statements below needs that).  A raised `KeyError` on the nutrient
model is modelled by `Except` with the error `UnknownNutrient`.
-/

namespace MicrobiomeApp

/-- An abundance cell: Python `None`, a float `nan`, or a numeric value. -/
inductive Amount where
  | null : Amount
  | nan : Amount
  | val : ℚ → Amount
deriving DecidableEq, Repr

/-- The only failure of `absorption_score`: `nutrients[nutrient]` raising
`KeyError` (the spec's `UnknownNutrient`). -/
inductive ScoreError where
  | UnknownNutrient : ScoreError
deriving DecidableEq, Repr

/-- `get_genus` from `src/app.py`: the part of the species name before the
first underscore (`species.split("_")[0]`), lower-cased character by
character.  (The non-string branch returning `"unknown"` cannot arise here
since species are strings.) -/
def get_genus (species : String) : String :=
  String.mk ((species.data.takeWhile (fun c => !(c == '_'))).map Char.toLower)

/-- The `genus_traits` dictionary of `src/app.py` (16 genus priors). -/
def genus_traits : List (String × List (String × ℚ)) :=
  [("lactobacillus", [("SCFA", 0.9), ("pH_reduction", 0.9), ("Barrier_support", 0.8),
      ("Vitamin_Biosynthesis", 0.6), ("Siderophore", 0.0)]),
   ("bifidobacterium", [("SCFA", 0.8), ("pH_reduction", 0.7), ("Barrier_support", 0.8),
      ("Vitamin_Biosynthesis", 0.7), ("Siderophore", 0.0)]),
   ("faecalibacterium", [("SCFA", 0.95), ("pH_reduction", 0.9), ("Barrier_support", 0.9),
      ("Vitamin_Biosynthesis", 0.4), ("Siderophore", 0.0)]),
   ("roseburia", [("SCFA", 0.9), ("pH_reduction", 0.8), ("Barrier_support", 0.7),
      ("Vitamin_Biosynthesis", 0.2), ("Siderophore", 0.0)]),
   ("bacteroides", [("SCFA", 0.6), ("pH_reduction", 0.3), ("Barrier_support", 0.5),
      ("Vitamin_Biosynthesis", 0.5), ("Siderophore", 0.1)]),
   ("prevotella", [("SCFA", 0.7), ("pH_reduction", 0.4), ("Barrier_support", 0.6),
      ("Vitamin_Biosynthesis", 0.3), ("Siderophore", 0.0)]),
   ("streptococcus", [("SCFA", 0.3), ("pH_reduction", 0.5), ("Barrier_support", 0.3),
      ("Vitamin_Biosynthesis", 0.3), ("Siderophore", 0.0)]),
   ("clostridium", [("SCFA", 0.8), ("pH_reduction", 0.6), ("Barrier_support", 0.4),
      ("Vitamin_Biosynthesis", 0.2), ("Siderophore", 0.0)]),
   ("ruminococcus", [("SCFA", 0.85), ("pH_reduction", 0.7), ("Barrier_support", 0.6),
      ("Vitamin_Biosynthesis", 0.3), ("Siderophore", 0.0)]),
   ("escherichia", [("SCFA", 0.1), ("pH_reduction", 0.0), ("Barrier_support", 0.1),
      ("Vitamin_Biosynthesis", 0.1), ("Siderophore", 0.9)]),
   ("enterobacter", [("SCFA", 0.1), ("pH_reduction", 0.0), ("Barrier_support", 0.1),
      ("Vitamin_Biosynthesis", 0.1), ("Siderophore", 0.8)]),
   ("eubacterium", [("SCFA", 0.5), ("pH_reduction", 0.4), ("Barrier_support", 0.3),
      ("Vitamin_Biosynthesis", 0.2), ("Siderophore", 0.0)]),
   ("haemophilus", [("SCFA", 0.2), ("pH_reduction", 0.2), ("Barrier_support", 0.2),
      ("Vitamin_Biosynthesis", 0.2), ("Siderophore", 0.3)]),
   ("megasphaera", [("SCFA", 0.7), ("pH_reduction", 0.5), ("Barrier_support", 0.4),
      ("Vitamin_Biosynthesis", 0.1), ("Siderophore", 0.0)]),
   ("parasutterella", [("SCFA", 0.3), ("pH_reduction", 0.2), ("Barrier_support", 0.2),
      ("Vitamin_Biosynthesis", 0.2), ("Siderophore", 0.2)]),
   ("gemmiger", [("SCFA", 0.6), ("pH_reduction", 0.4), ("Barrier_support", 0.5),
      ("Vitamin_Biosynthesis", 0.3), ("Siderophore", 0.0)])]

/-- The `default_trait` row of `src/app.py`, for species whose genus has no
prior. -/
def default_trait : List (String × ℚ) :=
  [("SCFA", 0.2), ("pH_reduction", 0.1), ("Barrier_support", 0.1),
   ("Vitamin_Biosynthesis", 0.1), ("Siderophore", 0.2)]

/-- The trait row assigned to a species: the genus prior when the genus is
known, `default_trait` otherwise (the `genus_traits.get(genus, default_trait)`
lookup of `src/app.py`). -/
def traitRowOf (sp : String) : List (String × ℚ) :=
  (genus_traits.lookup (get_genus sp)).getD default_trait

/-- The trait column names of the `traits` DataFrame of `src/app.py`. -/
def traitNames : List String :=
  ["SCFA", "pH_reduction", "Barrier_support", "Vitamin_Biosynthesis", "Siderophore"]

/-- The `traits` DataFrame of `src/app.py`: an index (the species of the
loaded abundance table), a column list, and the cell lookup `loc[sp, trait]`. -/
structure TraitTable where
  index : List String
  columns : List String
  cell : String → String → ℚ

/-- Build the species-level trait table of `src/app.py` from a species list:
index is the species list, columns the five trait names, and each cell comes
from the genus prior (or the default row). -/
def mkTraits (speciesList : List String) : TraitTable :=
  { index := speciesList
    columns := traitNames
    cell := fun sp t => ((traitRowOf sp).lookup t).getD 0 }

/-- The `nutrients` model of `src/app.py`: nutrient name to sparse
(trait, weight) pairs. -/
def nutrients : List (String × List (String × ℚ)) :=
  [("Iron", [("SCFA", 0.4), ("pH_reduction", 0.3), ("Barrier_support", 0.2),
      ("Siderophore", -0.6)]),
   ("Vitamin_B12", [("Vitamin_Biosynthesis", 0.7), ("Barrier_support", 0.2)]),
   ("Folate", [("Vitamin_Biosynthesis", 0.6)]),
   ("Calcium", [("SCFA", 0.5), ("pH_reduction", 0.4)]),
   ("Magnesium", [("SCFA", 0.4)]),
   ("Zinc", [("Barrier_support", 0.4), ("Siderophore", -0.5)])]

/-- The Python guard `ab is not None and ab > 0`: `None` fails the first
conjunct, `nan` fails `nan > 0`, a value passes iff it is positive. -/
def amtContributes : Amount → Bool
  | Amount.null => false
  | Amount.nan => false
  | Amount.val q => decide (0 < q)

/-- The full per-entry guard of the scoring loop:
`sp in traits.index and ab is not None and ab > 0`. -/
def contribP (T : TraitTable) (p : String × Amount) : Bool :=
  T.index.contains p.1 && amtContributes p.2

/-- The numeric value of a cell (only used where `amtContributes` holds, so
the `0` defaults are never read). -/
def amtVal : Amount → ℚ
  | Amount.val q => q
  | _ => 0

/-- One iteration of the outer loop of `absorption_score`: for an entry
`(sp, ab)` passing the guard, `nutrients[nutrient]` is looked up (raising
`UnknownNutrient` on a miss) and `ab * traits.loc[sp, trait] * w` is added
to the accumulator for each `(trait, w)` whose trait is a column. -/
def scoreStep (T : TraitTable) (N : List (String × List (String × ℚ)))
    (nutrient : String) (score : ℚ) (sp : String) (ab : Amount) :
    Except ScoreError ℚ :=
  if contribP T (sp, ab) then
    match N.lookup nutrient with
    | none => Except.error ScoreError.UnknownNutrient
    | some ws => Except.ok (ws.foldl
        (fun s tw => if T.columns.contains tw.1 then
            s + amtVal ab * T.cell sp tw.1 * tw.2
          else s) score)
  else
    Except.ok score

/-- One summand of `total_ab`: a `null` cell is filtered out, a `nan` cell
poisons the whole float sum (modelled by `none`), a numeric cell adds. -/
def totalStep (acc : Option ℚ) (p : String × Amount) : Option ℚ :=
  match p.2 with
  | Amount.null => acc
  | Amount.nan => none
  | Amount.val q => acc.map (· + q)

/-- `total_ab = sum([v for v in abundance.values() if v is not None])` of
`src/app.py`, in float semantics: `none` is `nan` (any `nan` summand turns
the whole sum into `nan`), otherwise the rational sum of non-null cells. -/
def totalAb (abundance : List (String × Amount)) : Option ℚ :=
  abundance.foldl totalStep (some 0)

/-- `absorption_score` of `src/app.py`, parameterised by the trait table and
nutrient model it closes over.  The accumulation loop runs first (it is where
`KeyError` can be raised); with `normalize` the result is `score / total_ab`
when `total_ab > 0` (false for a `nan` total) and `0.0` otherwise. -/
def absorption_score (T : TraitTable) (N : List (String × List (String × ℚ)))
    (abundance : List (String × Amount)) (nutrient : String)
    (normalize : Bool) : Except ScoreError ℚ := do
  let score ← abundance.foldlM (fun sc p => scoreStep T N nutrient sc p.1 p.2) 0
  if normalize then
    match totalAb abundance with
    | some t => if 0 < t then pure (score / t) else pure 0
    | none => pure 0
  else
    pure score

/-- `simulate_addition` of `src/app.py` on a numeric abundance dict:
clamp-update the targeted species when present, otherwise insert it with
`max(0, delta)`. -/
def simulate_addition (abundance : List (String × ℚ)) (microbe : String)
    (delta : ℚ) : List (String × ℚ) :=
  if abundance.any (fun p => p.1 == microbe) then
    abundance.map (fun p =>
      if p.1 == microbe then (p.1, max 0 (p.2 + delta)) else p)
  else
    abundance ++ [(microbe, max 0 delta)]

/-- View a numeric abundance dict as one with `Amount` cells. -/
def toAmounts (v : List (String × ℚ)) : List (String × Amount) :=
  v.map (fun p => (p.1, Amount.val p.2))

/-- `pct_change = (change / baseline_score * 100) if baseline_score != 0 else
np.nan` of `src/app.py`; `np.nan` is modelled as `none`. -/
def pct_change (change baseline_score : ℚ) : Option ℚ :=
  if baseline_score ≠ 0 then some (change / baseline_score * 100) else none

/-- The record the simulation page derives (lines 467-471 of `src/app.py`). -/
structure SimResult where
  baseline_score : ℚ
  new_score : ℚ
  change : ℚ
  pct : Option ℚ
deriving DecidableEq, Repr

/-- The simulation pipeline of `src/app.py` lines 467-471: score the
baseline, perturb with `simulate_addition`, rescore, and derive the absolute
and percent change (both scores normalized). -/
def simulate (speciesList : List String) (baseline : List (String × ℚ))
    (microbe nutrient : String) (delta : ℚ) : Except ScoreError SimResult := do
  let baseline_score ← absorption_score (mkTraits speciesList) nutrients
    (toAmounts baseline) nutrient true
  let new_score ← absorption_score (mkTraits speciesList) nutrients
    (toAmounts (simulate_addition baseline microbe delta)) nutrient true
  pure (SimResult.mk baseline_score new_score (new_score - baseline_score)
    (pct_change (new_score - baseline_score) baseline_score))

/-- Mathematical form of the inner contribution of one species: the sum of
`traits.loc[sp, trait] * w` over the nutrient's (trait, weight) pairs whose
trait is a column. -/
def weightSum (T : TraitTable) (sp : String) (ws : List (String × ℚ)) : ℚ :=
  ((ws.filter (fun tw => T.columns.contains tw.1)).map
    (fun tw => T.cell sp tw.1 * tw.2)).sum

/-- Mathematical form of the raw score: the sum of `amount * weightSum` over
the entries whose species is in the trait index and whose amount is non-null
and strictly positive. -/
def rawSum (T : TraitTable) (ws : List (String × ℚ))
    (abundance : List (String × Amount)) : ℚ :=
  ((abundance.filter (contribP T)).map
    (fun p => amtVal p.2 * weightSum T p.1 ws)).sum

/-- The sum of all non-null abundance cells (the spec's normalization
denominator), as a plain rational (meaningful on `nan`-free vectors). -/
def nnTotal (abundance : List (String × Amount)) : ℚ :=
  ((abundance.filter (fun p => !(p.2 == Amount.null))).map
    (fun p => amtVal p.2)).sum

/-- The sum of only the strictly-positive non-null abundance cells — the
denominator the spec's §3 invariant claims for normalization (written from
the spec's words, for comparison with the code's `totalAb`). -/
def posTotal (abundance : List (String × Amount)) : ℚ :=
  ((abundance.filter (fun p => amtContributes p.2)).map
    (fun p => amtVal p.2)).sum

/-- Scale one abundance cell by `k` (numeric cells multiply; `null` has no
value to scale and `nan` stays `nan`). -/
def scaleAmt (k : ℚ) : Amount → Amount
  | Amount.val q => Amount.val (k * q)
  | a => a

/-- Scale every abundance value of a vector by `k`. -/
def scaleVec (k : ℚ) (v : List (String × Amount)) : List (String × Amount) :=
  v.map (fun p => (p.1, scaleAmt k p.2))

/-- The contribution of one numeric abundance entry to the raw score
(`qContrib` is `rawSum` read off entry by entry on an all-numeric vector). -/
def qContrib (T : TraitTable) (ws : List (String × ℚ)) (p : String × ℚ) : ℚ :=
  if T.index.contains p.1 && decide (0 < p.2) then p.2 * weightSum T p.1 ws else 0

/-- The (trait, weight) pairs of the `Vitamin_B12` nutrient model. -/
def vitaminB12Weights : List (String × ℚ) :=
  [("Vitamin_Biosynthesis", 0.7), ("Barrier_support", 0.2)]

/-- The normalized score of a numeric abundance vector against the app's own
trait table (built from `speciesList`) and nutrient model, as a plain
rational (for a nutrient of the model the `Except` wrapper never fails, so
the `getD 0` default is never read). -/
def normScoreQ (speciesList : List String) (v : List (String × ℚ))
    (nutrient : String) : ℚ :=
  ((absorption_score (mkTraits speciesList) nutrients (toAmounts v) nutrient
    true).toOption).getD 0


theorem weightSum_cons_pos {T : TraitTable} {tw : String × ℚ} (sp : String)
    (rest : List (String × ℚ)) (h : T.columns.contains tw.1 = true) :
    weightSum T sp (tw :: rest) = T.cell sp tw.1 * tw.2 + weightSum T sp rest := by
  have h' : tw.1 ∈ T.columns := by simpa using h
  simp [weightSum, List.filter_cons, h']

theorem weightSum_cons_neg {T : TraitTable} {tw : String × ℚ} (sp : String)
    (rest : List (String × ℚ)) (h : ¬ T.columns.contains tw.1 = true) :
    weightSum T sp (tw :: rest) = weightSum T sp rest := by
  have h' : ¬ tw.1 ∈ T.columns := by simpa using h
  simp [weightSum, List.filter_cons, h']

theorem inner_foldl (T : TraitTable) (sp : String) (a : ℚ) :
    ∀ (ws : List (String × ℚ)) (s0 : ℚ),
      ws.foldl (fun s tw => if T.columns.contains tw.1 then
          s + a * T.cell sp tw.1 * tw.2 else s) s0
        = s0 + a * weightSum T sp ws := by
  intro ws
  induction ws with
  | nil => intro s0; simp [weightSum]
  | cons tw rest ih =>
    intro s0
    by_cases h : T.columns.contains tw.1 = true
    · rw [List.foldl_cons, if_pos h, ih, weightSum_cons_pos sp rest h]
      ring
    · rw [List.foldl_cons, if_neg h, ih, weightSum_cons_neg sp rest h]

theorem rawSum_cons_pos {T : TraitTable} {ws : List (String × ℚ)}
    {p : String × Amount} (rest : List (String × Amount))
    (h : contribP T p = true) :
    rawSum T ws (p :: rest) = amtVal p.2 * weightSum T p.1 ws + rawSum T ws rest := by
  simp [rawSum, List.filter_cons, h]

theorem rawSum_cons_neg {T : TraitTable} {ws : List (String × ℚ)}
    {p : String × Amount} (rest : List (String × Amount))
    (h : ¬ contribP T p = true) :
    rawSum T ws (p :: rest) = rawSum T ws rest := by
  simp [rawSum, List.filter_cons, h]

theorem exBindOk {α : Type} (a : ℚ) (k : ℚ → Except ScoreError α) :
    (Except.ok a >>= k) = k a := rfl

theorem exBindErr {α : Type} (e : ScoreError) (k : ℚ → Except ScoreError α) :
    (Except.error e >>= k) = Except.error e := rfl

theorem score_foldlM_ok {T : TraitTable} {N : List (String × List (String × ℚ))}
    {nutrient : String} {ws : List (String × ℚ)}
    (hws : N.lookup nutrient = some ws) :
    ∀ (v : List (String × Amount)) (s0 : ℚ),
      v.foldlM (fun sc p => scoreStep T N nutrient sc p.1 p.2) s0
        = Except.ok (s0 + rawSum T ws v) := by
  intro v
  induction v with
  | nil => intro s0; simp [rawSum, pure, Except.pure]
  | cons p rest ih =>
    intro s0
    rw [List.foldlM_cons]
    by_cases h : contribP T p = true
    · have h2 : contribP T (p.1, p.2) = true := by simpa using h
      rw [scoreStep, if_pos h2, hws, exBindOk, inner_foldl, ih, rawSum_cons_pos rest h]
      ring_nf
    · have h2 : ¬ contribP T (p.1, p.2) = true := by simpa using h
      rw [scoreStep, if_neg h2, exBindOk, ih s0, rawSum_cons_neg rest h]

theorem score_foldlM_none {T : TraitTable} {N : List (String × List (String × ℚ))}
    {nutrient : String} (hws : N.lookup nutrient = none) :
    ∀ (v : List (String × Amount)) (s0 : ℚ),
      v.foldlM (fun sc p => scoreStep T N nutrient sc p.1 p.2) s0
        = if v.any (contribP T) then Except.error ScoreError.UnknownNutrient
          else Except.ok s0 := by
  intro v
  induction v with
  | nil => intro s0; simp [pure, Except.pure]
  | cons p rest ih =>
    intro s0
    rw [List.foldlM_cons, List.any_cons]
    by_cases h : contribP T p = true
    · have h2 : contribP T (p.1, p.2) = true := by simpa using h
      rw [scoreStep, if_pos h2, hws, exBindErr, if_pos (by simp [h])]
    · have h2 : ¬ contribP T (p.1, p.2) = true := by simpa using h
      have h3 : contribP T p = false := by simpa using h
      rw [scoreStep, if_neg h2, exBindOk, ih s0, h3, Bool.false_or]

theorem nnTotal_cons_null (sp : String) (rest : List (String × Amount)) :
    nnTotal ((sp, Amount.null) :: rest) = nnTotal rest := by
  simp [nnTotal, List.filter_cons]

theorem nnTotal_cons_val (sp : String) (q : ℚ) (rest : List (String × Amount)) :
    nnTotal ((sp, Amount.val q) :: rest) = q + nnTotal rest := by
  simp [nnTotal, List.filter_cons, amtVal]

theorem totalAb_go :
    ∀ (v : List (String × Amount)) (t : ℚ), (∀ p ∈ v, p.2 ≠ Amount.nan) →
      v.foldl totalStep (some t) = some (t + nnTotal v) := by
  intro v
  induction v with
  | nil => intro t _; simp [nnTotal]
  | cons p rest ih =>
    intro t hnan
    rcases p with ⟨sp, ab⟩
    cases ab with
    | null =>
      rw [List.foldl_cons]
      show rest.foldl totalStep (some t) = _
      rw [ih t (fun q hq => hnan q (List.mem_cons_of_mem _ hq)), nnTotal_cons_null]
    | nan => exact absurd rfl (hnan (sp, Amount.nan) (List.mem_cons_self _ _))
    | val q =>
      rw [List.foldl_cons]
      show rest.foldl totalStep (some (t + q)) = _
      rw [ih (t + q) (fun r hr => hnan r (List.mem_cons_of_mem _ hr)), nnTotal_cons_val]
      ring_nf

theorem totalAb_eq {v : List (String × Amount)} (hnan : ∀ p ∈ v, p.2 ≠ Amount.nan) :
    totalAb v = some (nnTotal v) := by
  rw [totalAb, totalAb_go v 0 hnan, zero_add]

theorem totalAb_go_none :
    ∀ (v : List (String × Amount)), v.foldl totalStep none = none := by
  intro v
  induction v with
  | nil => rfl
  | cons p rest ih =>
    rcases p with ⟨sp, ab⟩
    cases ab with
    | null => rw [List.foldl_cons]; exact ih
    | nan => rw [List.foldl_cons]; exact ih
    | val q => rw [List.foldl_cons]; exact ih

theorem totalAb_go_nan :
    ∀ (v : List (String × Amount)), Amount.nan ∈ v.map Prod.snd →
      ∀ (acc : Option ℚ), v.foldl totalStep acc = none := by
  intro v
  induction v with
  | nil => intro h; simp at h
  | cons p rest ih =>
    intro h acc
    rcases p with ⟨sp, ab⟩
    rw [List.foldl_cons]
    cases ab with
    | null => exact ih (by simpa using h) acc
    | nan =>
      show rest.foldl totalStep none = none
      exact totalAb_go_none rest
    | val q =>
      have h2 : Amount.nan ∈ rest.map Prod.snd := by simpa using h
      exact ih h2 _

theorem totalAb_nan {v : List (String × Amount)}
    (h : Amount.nan ∈ v.map Prod.snd) : totalAb v = none :=
  totalAb_go_nan v h (some 0)

theorem absorption_false_eq {T : TraitTable} {N : List (String × List (String × ℚ))}
    {nutrient : String} {ws : List (String × ℚ)} (hws : N.lookup nutrient = some ws)
    (v : List (String × Amount)) :
    absorption_score T N v nutrient false = Except.ok (rawSum T ws v) := by
  rw [absorption_score, score_foldlM_ok hws v 0, exBindOk, zero_add]
  rfl

theorem absorption_true_eq {T : TraitTable} {N : List (String × List (String × ℚ))}
    {nutrient : String} {ws : List (String × ℚ)} (hws : N.lookup nutrient = some ws)
    {v : List (String × Amount)} (hnan : ∀ p ∈ v, p.2 ≠ Amount.nan) :
    absorption_score T N v nutrient true
      = Except.ok (if 0 < nnTotal v then rawSum T ws v / nnTotal v else 0) := by
  rw [absorption_score, score_foldlM_ok hws v 0, exBindOk, zero_add]
  show (match totalAb v with
    | some t => if 0 < t then pure (rawSum T ws v / t) else pure 0
    | none => pure 0) = _
  rw [totalAb_eq hnan]
  by_cases h : 0 < nnTotal v
  · simp [h, pure, Except.pure]
  · simp [h, pure, Except.pure]

theorem absorption_true_nan {T : TraitTable} {N : List (String × List (String × ℚ))}
    {nutrient : String} {ws : List (String × ℚ)} (hws : N.lookup nutrient = some ws)
    {v : List (String × Amount)} (hnan : Amount.nan ∈ v.map Prod.snd) :
    absorption_score T N v nutrient true = Except.ok 0 := by
  rw [absorption_score, score_foldlM_ok hws v 0, exBindOk, zero_add]
  show (match totalAb v with
    | some t => if 0 < t then pure (rawSum T ws v / t) else pure 0
    | none => pure 0) = _
  rw [totalAb_nan hnan]
  rfl

theorem absorption_lookup_none {T : TraitTable} {N : List (String × List (String × ℚ))}
    {nutrient : String} (hws : N.lookup nutrient = none)
    (v : List (String × Amount)) (nm : Bool) :
    absorption_score T N v nutrient nm
      = if v.any (contribP T) then Except.error ScoreError.UnknownNutrient
        else Except.ok 0 := by
  rw [absorption_score, score_foldlM_none hws v 0]
  by_cases h : v.any (contribP T) = true
  · rw [if_pos h, exBindErr]
  · rw [if_neg h, exBindOk]
    cases nm with
    | false => rfl
    | true =>
      show (match totalAb v with
        | some t => if 0 < t then pure ((0:ℚ) / t) else pure 0
        | none => pure 0) = _
      cases htot : totalAb v with
      | none => rfl
      | some t =>
        by_cases ht : 0 < t
        · simp [ht, pure, Except.pure]
        · simp [ht, pure, Except.pure]

theorem absorption_ok_of_some {T : TraitTable} {N : List (String × List (String × ℚ))}
    {nutrient : String} {ws : List (String × ℚ)} (hws : N.lookup nutrient = some ws)
    (v : List (String × Amount)) (nm : Bool) :
    ∃ r, absorption_score T N v nutrient nm = Except.ok r := by
  cases nm with
  | false => exact ⟨_, absorption_false_eq hws v⟩
  | true =>
    by_cases h : Amount.nan ∈ v.map Prod.snd
    · exact ⟨0, absorption_true_nan hws h⟩
    · refine ⟨_, absorption_true_eq hws (fun p hp hn => h ?_)⟩
      rw [← hn]
      exact List.mem_map_of_mem Prod.snd hp

theorem sum_filter_map_if {α : Type} (c : α → Bool) (g : α → ℚ) :
    ∀ (l : List α), ((l.filter c).map g).sum
      = (l.map (fun x => if c x then g x else 0)).sum := by
  intro l
  induction l with
  | nil => simp
  | cons x rest ih =>
    by_cases h : c x = true
    · simp [List.filter_cons, h, ih]
    · simp [List.filter_cons, h, ih]

theorem rawSum_eq_map_if (T : TraitTable) (ws : List (String × ℚ))
    (v : List (String × Amount)) :
    rawSum T ws v
      = (v.map (fun p => if contribP T p then amtVal p.2 * weightSum T p.1 ws
          else 0)).sum := by
  rw [rawSum, sum_filter_map_if]

theorem rawSum_toAmounts (T : TraitTable) (ws : List (String × ℚ))
    (v : List (String × ℚ)) :
    rawSum T ws (toAmounts v) = (v.map (qContrib T ws)).sum := by
  rw [rawSum_eq_map_if, toAmounts, List.map_map]
  congr 1

theorem nnTotal_toAmounts (v : List (String × ℚ)) :
    nnTotal (toAmounts v) = (v.map Prod.snd).sum := by
  induction v with
  | nil => simp [nnTotal, toAmounts]
  | cons p rest ih =>
    rcases p with ⟨sp, q⟩
    show nnTotal ((sp, Amount.val q) :: toAmounts rest) = _
    rw [nnTotal_cons_val, ih]
    simp

theorem toAmounts_no_nan (v : List (String × ℚ)) :
    ∀ p ∈ toAmounts v, p.2 ≠ Amount.nan := by
  intro p hp
  rw [toAmounts, List.mem_map] at hp
  rcases hp with ⟨q, _, rfl⟩
  simp

theorem lookup_some_any {s : String} {a : ℚ} :
    ∀ {v : List (String × ℚ)}, v.lookup s = some a →
      v.any (fun p => p.1 == s) = true := by
  intro v
  induction v with
  | nil => intro h; simp [List.lookup] at h
  | cons p rest ih =>
    intro h
    rcases p with ⟨k, b⟩
    rw [List.any_cons]
    by_cases hk : k = s
    · simp [hk]
    · rw [List.lookup] at h
      have hk2 : (s == k) = false := by
        simpa using fun e => hk e.symm
      rw [hk2] at h
      simp only [ih h, Bool.or_true]

theorem lookup_none_any {s : String} :
    ∀ {v : List (String × ℚ)}, v.lookup s = none →
      v.any (fun p => p.1 == s) = false := by
  intro v
  induction v with
  | nil => intro _; rfl
  | cons p rest ih =>
    intro h
    rcases p with ⟨k, b⟩
    rw [List.lookup] at h
    by_cases hk : k = s
    · rw [hk] at h; simp at h
    · have hk2 : (s == k) = false := by simpa using fun e => hk e.symm
      rw [hk2] at h
      rw [List.any_cons, ih h]
      have hk3 : (k == s) = false := by simpa using hk
      rw [hk3]
      rfl

theorem lookup_map_update {s : String} {d : ℚ} :
    ∀ (v : List (String × ℚ)),
      (v.map (fun p => if p.1 == s then (p.1, max 0 (p.2 + d)) else p)).lookup s
        = (v.lookup s).map (fun a => max 0 (a + d)) := by
  intro v
  induction v with
  | nil => rfl
  | cons p rest ih =>
    rcases p with ⟨k, b⟩
    by_cases hk : k = s
    · have hk2 : (k == s) = true := by simpa using hk
      have hk3 : (s == k) = true := by simpa using hk.symm
      simp only [List.map_cons, hk2, if_pos]
      rw [List.lookup, List.lookup, hk3]
      rfl
    · have hk2 : (k == s) = false := by simpa using hk
      have hk3 : (s == k) = false := by simpa using fun e => hk e.symm
      simp only [List.map_cons, hk2]
      rw [if_neg (by simp [hk2]), List.lookup, List.lookup, hk3, ih]

theorem lookup_map_update_ne {s t : String} {d : ℚ} (hts : t ≠ s) :
    ∀ (v : List (String × ℚ)),
      (v.map (fun p => if p.1 == s then (p.1, max 0 (p.2 + d)) else p)).lookup t
        = v.lookup t := by
  intro v
  induction v with
  | nil => rfl
  | cons p rest ih =>
    rcases p with ⟨k, b⟩
    by_cases hk : k = s
    · have hk2 : (k == s) = true := by simpa using hk
      have hk3 : (t == k) = false := by
        simpa using fun e => hts (e.trans hk)
      simp only [List.map_cons, hk2, if_pos]
      rw [List.lookup, List.lookup, hk3, ih]
    · have hk2 : (k == s) = false := by simpa using hk
      simp only [List.map_cons]
      rw [if_neg (by simp [hk2]), List.lookup, List.lookup, ih]

theorem lookup_append_right {s : String} {w : List (String × ℚ)} :
    ∀ {v : List (String × ℚ)}, v.lookup s = none →
      (v ++ w).lookup s = w.lookup s := by
  intro v
  induction v with
  | nil => intro _; rfl
  | cons p rest ih =>
    intro h
    rcases p with ⟨k, b⟩
    rw [List.lookup] at h
    by_cases hk : s = k
    · have hk2 : (s == k) = true := by simpa using hk
      rw [hk2] at h
      simp at h
    · have hk2 : (s == k) = false := by simpa using hk
      rw [hk2] at h
      rw [List.cons_append, List.lookup, hk2, ih h]

theorem lookup_append_single_ne {s t : String} {c : ℚ} (hts : t ≠ s) :
    ∀ (v : List (String × ℚ)),
      (v ++ [(s, c)]).lookup t = v.lookup t := by
  intro v
  induction v with
  | nil =>
    have hk2 : (t == s) = false := by simpa using hts
    simp [List.lookup, hk2]
  | cons p rest ih =>
    rcases p with ⟨k, b⟩
    rw [List.cons_append, List.lookup, List.lookup, ih]

theorem sim_lookup_mem {v : List (String × ℚ)} {s : String} {a : ℚ} (d : ℚ)
    (h : v.lookup s = some a) :
    (simulate_addition v s d).lookup s = some (max 0 (a + d)) := by
  rw [simulate_addition, if_pos (lookup_some_any h), lookup_map_update, h]
  rfl

theorem sim_lookup_absent {v : List (String × ℚ)} {s : String} (d : ℚ)
    (h : v.lookup s = none) :
    (simulate_addition v s d).lookup s = some (max 0 d) := by
  rw [simulate_addition, if_neg (by simp [lookup_none_any h]),
    lookup_append_right h, List.lookup]
  simp

theorem sim_lookup_ne {v : List (String × ℚ)} {s t : String} (d : ℚ)
    (hts : t ≠ s) :
    (simulate_addition v s d).lookup t = v.lookup t := by
  rw [simulate_addition]
  by_cases h : v.any (fun p => p.1 == s) = true
  · rw [if_pos h, lookup_map_update_ne hts]
  · rw [if_neg h, lookup_append_single_ne hts]

theorem lookup_mem_q {β : Type} {l : List (String × β)} {a : String} {b : β} :
    l.lookup a = some b → (a, b) ∈ l := by
  induction l with
  | nil => intro h; simp [List.lookup] at h
  | cons p rest ih =>
    intro h
    rcases p with ⟨k, c⟩
    rw [List.lookup] at h
    by_cases hk : a = k
    · have hk2 : (a == k) = true := by simpa using hk
      rw [hk2] at h
      simp only [Option.some.injEq] at h
      exact hk ▸ h ▸ List.mem_cons_self _ _
    · have hk2 : (a == k) = false := by simpa using hk
      rw [hk2] at h
      exact List.mem_cons_of_mem _ (ih h)

theorem lookup_getD_nonneg {l : List (String × ℚ)}
    (h : ∀ tw ∈ l, 0 ≤ tw.2) (t : String) : 0 ≤ (l.lookup t).getD 0 := by
  cases hl : l.lookup t with
  | none => simp
  | some b =>
    have := h (t, b) (lookup_mem_q hl)
    simpa using this

theorem genus_rows_nonneg : ∀ pr ∈ genus_traits, ∀ tw ∈ pr.2, 0 ≤ tw.2 := by
  intro pr hpr tw htw
  fin_cases hpr <;> fin_cases htw <;> norm_num

theorem default_trait_nonneg : ∀ tw ∈ default_trait, 0 ≤ tw.2 := by
  intro tw htw
  fin_cases htw <;> norm_num

theorem traitRowOf_nonneg (sp : String) : ∀ tw ∈ traitRowOf sp, 0 ≤ tw.2 := by
  rw [traitRowOf]
  cases hl : genus_traits.lookup (get_genus sp) with
  | none => simpa using default_trait_nonneg
  | some r =>
    have hmem := lookup_mem_q hl
    simpa using genus_rows_nonneg _ hmem

theorem cell_nonneg (SL : List String) (sp t : String) :
    0 ≤ (mkTraits SL).cell sp t :=
  lookup_getD_nonneg (traitRowOf_nonneg sp) t

theorem weightSum_nonneg {T : TraitTable} {sp : String} {ws : List (String × ℚ)}
    (hw : ∀ tw ∈ ws, 0 ≤ tw.2) (hc : ∀ t, 0 ≤ T.cell sp t) :
    0 ≤ weightSum T sp ws := by
  rw [weightSum]
  apply List.sum_nonneg
  intro x hx
  rw [List.mem_map] at hx
  rcases hx with ⟨tw, htw, rfl⟩
  exact mul_nonneg (hc tw.1) (hw tw (List.mem_of_mem_filter htw))

theorem vb12_weights_nonneg : ∀ tw ∈ vitaminB12Weights, 0 ≤ tw.2 := by
  intro tw htw
  fin_cases htw <;> norm_num

theorem weightSum_vb12_nonneg (SL : List String) (sp : String) :
    0 ≤ weightSum (mkTraits SL) sp vitaminB12Weights :=
  weightSum_nonneg vb12_weights_nonneg (cell_nonneg SL sp)

theorem weightSum_lacto (SL : List String) {s : String}
    (hg : get_genus s = "lactobacillus") :
    weightSum (mkTraits SL) s vitaminB12Weights = 29/50 := by
  simp [weightSum, mkTraits, traitNames, vitaminB12Weights, traitRowOf, hg,
    genus_traits, List.lookup]
  norm_num

theorem qContrib_nonneg {T : TraitTable} {ws : List (String × ℚ)}
    (p : String × ℚ) (hw : 0 ≤ weightSum T p.1 ws) :
    0 ≤ qContrib T ws p := by
  rw [qContrib]
  split
  · next h =>
    rw [Bool.and_eq_true] at h
    exact mul_nonneg (le_of_lt (of_decide_eq_true h.2)) hw
  · exact le_refl 0

theorem sum_map_shift {α : Type} (f g : α → ℚ) (c : ℚ) (p : α → Bool) :
    ∀ (l : List α), (∀ x ∈ l, g x = f x + (if p x then c else 0)) →
      (l.map g).sum = (l.map f).sum + (l.countP p) * c := by
  intro l
  induction l with
  | nil => intro _; simp
  | cons x rest ih =>
    intro h
    have hx := h x (List.mem_cons_self _ _)
    have hrest := ih (fun y hy => h y (List.mem_cons_of_mem _ hy))
    by_cases hp : p x = true
    · simp only [List.map_cons, List.sum_cons, hrest, hx, hp, if_pos,
        List.countP_cons, hp]
      push_cast
      ring
    · have hp2 : p x = false := by simpa using hp
      simp only [List.map_cons, List.sum_cons, hrest, hx, hp2,
        List.countP_cons]
      norm_num
      ring

theorem norm_div_mono (R S t c : ℚ) (hc : 0 ≤ c) (hS : 0 ≤ S) (ht : 0 < t)
    (hR : 0 ≤ R) (hRS : (if 0 < S then R / S else 0) ≤ c) :
    (if 0 < S then R / S else 0) ≤ (if 0 < S + t then (R + c * t) / (S + t) else 0) := by
  by_cases hSpos : 0 < S
  · have hSt : 0 < S + t := by linarith
    rw [if_pos hSpos, if_pos hSt]
    rw [if_pos hSpos] at hRS
    rw [div_le_div_iff₀ hSpos hSt]
    have hRcS : R ≤ c * S := by
      rw [div_le_iff₀ hSpos] at hRS
      linarith
    nlinarith
  · have hS0 : S = 0 := le_antisymm (not_lt.mp hSpos) hS
    rw [if_neg hSpos, hS0, zero_add, if_pos ht]
    positivity

theorem normScoreQ_eq {nutrient : String} {ws : List (String × ℚ)}
    (hws : nutrients.lookup nutrient = some ws)
    (SL : List String) (v : List (String × ℚ)) :
    normScoreQ SL v nutrient
      = if 0 < (v.map Prod.snd).sum
        then (v.map (qContrib (mkTraits SL) ws)).sum / (v.map Prod.snd).sum
        else 0 := by
  rw [normScoreQ, absorption_true_eq hws (toAmounts_no_nan v),
    rawSum_toAmounts, nnTotal_toAmounts]
  rfl

theorem contribP_scale {T : TraitTable} {k : ℚ} (hk : 0 < k)
    (p : String × Amount) :
    contribP T (p.1, scaleAmt k p.2) = contribP T p := by
  rcases p with ⟨sp, ab⟩
  cases ab with
  | null => rfl
  | nan => rfl
  | val q =>
    simp only [contribP, scaleAmt, amtContributes]
    congr 1
    exact decide_eq_decide.mpr (mul_pos_iff_of_pos_left hk)

theorem amtVal_scale (k : ℚ) (ab : Amount) :
    amtVal (scaleAmt k ab) = k * amtVal ab := by
  cases ab with
  | null => simp [scaleAmt, amtVal]
  | nan => simp [scaleAmt, amtVal]
  | val q => rfl

theorem rawSum_scale {T : TraitTable} {ws : List (String × ℚ)} {k : ℚ}
    (hk : 0 < k) (v : List (String × Amount)) :
    rawSum T ws (scaleVec k v) = k * rawSum T ws v := by
  rw [rawSum_eq_map_if, rawSum_eq_map_if, scaleVec, List.map_map,
    ← List.sum_map_mul_left]
  apply congrArg
  apply List.map_congr_left
  intro p hp
  show (if contribP T (p.1, scaleAmt k p.2) then
      amtVal (scaleAmt k p.2) * weightSum T p.1 ws else 0) = _
  rw [contribP_scale hk, amtVal_scale]
  by_cases h : contribP T p = true
  · rw [if_pos h, if_pos h]; ring
  · rw [if_neg h, if_neg h, mul_zero]

theorem any_contrib_scale {T : TraitTable} {k : ℚ} (hk : 0 < k)
    (v : List (String × Amount)) :
    (scaleVec k v).any (contribP T) = v.any (contribP T) := by
  rw [scaleVec, List.any_map]
  congr 1
  funext p
  show contribP T (p.1, scaleAmt k p.2) = contribP T p
  exact contribP_scale hk p

/-- C4: `simulate_addition` returns a vector that agrees with the input on
every species other than the targeted one, maps a present target with amount
`a` to `max 0 (a + d)` and an absent target to `max 0 d`.  (In this pure
embedding the input list is untouched by construction.) -/
theorem simulate_addition_pointwise (v : List (String × ℚ)) (s : String)
    (d : ℚ) (t : String) :
    (t ≠ s → (simulate_addition v s d).lookup t = v.lookup t) ∧
    (∀ a : ℚ, v.lookup s = some a →
      (simulate_addition v s d).lookup s = some (max 0 (a + d))) ∧
    (v.lookup s = none → (simulate_addition v s d).lookup s = some (max 0 d)) :=
  ⟨fun h => sim_lookup_ne d h, fun _ h => sim_lookup_mem d h,
   fun h => sim_lookup_absent d h⟩

/-- Witness for C4 at a concrete vector. -/
theorem simulate_addition_pointwise_witness :
    (simulate_addition [("a", (1:ℚ))] "a" (-5)).lookup "b"
        = [("a", (1:ℚ))].lookup "b" ∧
    (simulate_addition [("a", (1:ℚ))] "a" (-5)).lookup "a"
        = some (max 0 (1 + (-5))) :=
  ⟨(simulate_addition_pointwise [("a", (1:ℚ))] "a" (-5) "b").1 (by decide),
   (simulate_addition_pointwise [("a", (1:ℚ))] "a" (-5) "b").2.1 1
     (by simp [List.lookup])⟩

/-- C5 fails on the code: with amount 1, delta -3 the round trip leaves 3
(the clamped-away mass is re-added), not the 0 the claim asserts. -/
theorem clamp_round_trip_counterexample :
    (0:ℚ) ≤ 1 ∧ (1:ℚ) + (-3) < 0 ∧
    (simulate_addition (simulate_addition [("a", (1:ℚ))] "a" (-3)) "a"
      (-(-3))).lookup "a" = some 3 ∧ ¬ ((3:ℚ) = 0) ∧ ¬ ((3:ℚ) = 1) := by
  have h1 : ([("a", (1:ℚ))].lookup "a") = some 1 := by simp [List.lookup]
  have h2 := sim_lookup_mem (v := [("a", (1:ℚ))]) (-3) h1
  have h2' : (simulate_addition [("a", (1:ℚ))] "a" (-3)).lookup "a"
      = some 0 := by
    rw [h2]
    norm_num
  have h3 := sim_lookup_mem (v := simulate_addition [("a", (1:ℚ))] "a" (-3))
    (-(-3)) h2'
  refine ⟨by norm_num, by norm_num, ?_, by norm_num, by norm_num⟩
  rw [h3]
  norm_num

/-- C5 amended: when `a ≥ 0` and `a + d < 0`, the round trip
`applyDelta (applyDelta v s d) s (-d)` leaves the species at `-d` (which is
strictly greater than `a`), not at `a` and not at 0. -/
theorem clamp_round_trip_value (v : List (String × ℚ)) (s : String) (a d : ℚ)
    (hv : v.lookup s = some a) (ha : 0 ≤ a) (hd : a + d < 0) :
    (simulate_addition (simulate_addition v s d) s (-d)).lookup s = some (-d)
      ∧ a < -d := by
  have h2 := sim_lookup_mem (v := v) d hv
  have h2' : (simulate_addition v s d).lookup s = some 0 := by
    rw [h2, max_eq_left (by linarith)]
  have h3 := sim_lookup_mem (v := simulate_addition v s d) (-d) h2'
  constructor
  · rw [h3, zero_add, max_eq_right (by linarith)]
  · linarith

/-- Witness for C5 amended at amount 1, delta -3. -/
theorem clamp_round_trip_value_witness :
    (simulate_addition (simulate_addition [("a", (1:ℚ))] "a" (-3)) "a"
      (-(-3))).lookup "a" = some (-(-3)) ∧ (1:ℚ) < -(-3) :=
  clamp_round_trip_value [("a", (1:ℚ))] "a" 1 (-3) (by simp [List.lookup])
    (by norm_num) (by norm_num)

/-- C7 fails on the code: a pre-existing negative amount of an untouched
species survives `simulate_addition` unchanged. -/
theorem negative_amount_preserved_counterexample :
    ("a", (-1:ℚ)) ∈ simulate_addition [("a", (-1:ℚ))] "b" 5 ∧ (-1:ℚ) < 0 := by
  constructor
  · simp [simulate_addition]
  · norm_num

/-- C7 amended: `simulate_addition` never assigns a negative amount to the
targeted species, and when the input vector is free of negative amounts the
output is too (the clamp only applies to the perturbed species). -/
theorem simulate_addition_preserves_nonneg (v : List (String × ℚ))
    (s : String) (d : ℚ) (hv : v.all (fun p => decide (0 ≤ p.2)) = true) :
    (simulate_addition v s d).all (fun p => decide (0 ≤ p.2)) = true := by
  rw [simulate_addition]
  by_cases h : v.any (fun p => p.1 == s) = true
  · rw [if_pos h, List.all_map, List.all_eq_true]
    rw [List.all_eq_true] at hv
    intro p hp
    by_cases hps : (p.1 == s) = true
    · show decide (0 ≤ (if p.1 == s then (p.1, max 0 (p.2 + d)) else p).2) = true
      rw [if_pos hps]
      exact decide_eq_true (le_max_left 0 _)
    · show decide (0 ≤ (if p.1 == s then (p.1, max 0 (p.2 + d)) else p).2) = true
      rw [if_neg hps]
      exact hv p hp
  · rw [if_neg h, List.all_append, hv, Bool.true_and]
    simp [le_max_left]

/-- Witness for C7 amended at a concrete nonnegative vector and negative
delta on an absent species. -/
theorem simulate_addition_preserves_nonneg_witness :
    (simulate_addition [("a", (1:ℚ))] "b" (-5)).all
      (fun p => decide (0 ≤ p.2)) = true :=
  simulate_addition_preserves_nonneg [("a", (1:ℚ))] "b" (-5) (by simp)

/-- C2: for a nutrient of the model and a vector of null-or-numeric cells,
the raw score is the sum of `amount * traitValue * weight` over contributing
entries, `normalize=false` returns it as is, and `normalize=true` divides by
the sum of all non-null cells when that sum is positive and yields 0.0
otherwise. -/
theorem absorption_score_characterization (T : TraitTable)
    (N : List (String × List (String × ℚ))) (v : List (String × Amount))
    (nutrient : String) (ws : List (String × ℚ))
    (hws : N.lookup nutrient = some ws) (hnan : ∀ p ∈ v, p.2 ≠ Amount.nan) :
    absorption_score T N v nutrient false = Except.ok (rawSum T ws v) ∧
    absorption_score T N v nutrient true
      = Except.ok (if 0 < nnTotal v then rawSum T ws v / nnTotal v else 0) :=
  ⟨absorption_false_eq hws v, absorption_true_eq hws hnan⟩

/-- Witness for C2 at a concrete vector with a negative (non-contributing
but non-null) entry. -/
theorem absorption_score_characterization_witness :
    absorption_score (mkTraits ["lactobacillus_sp"]) nutrients
      [("lactobacillus_sp", Amount.val 1), ("x", Amount.val (-1/2))]
      "Folate" false
      = Except.ok (rawSum (mkTraits ["lactobacillus_sp"])
          [("Vitamin_Biosynthesis", 0.6)]
          [("lactobacillus_sp", Amount.val 1), ("x", Amount.val (-1/2))]) :=
  (absorption_score_characterization (mkTraits ["lactobacillus_sp"]) nutrients
    [("lactobacillus_sp", Amount.val 1), ("x", Amount.val (-1/2))] "Folate"
    [("Vitamin_Biosynthesis", 0.6)] (by simp [nutrients, List.lookup])
    (by simp)).1

/-- C3 fails as an iff: on an abundance vector with no contributing entry
(here the empty vector) an unknown nutrient is never looked up, so no error
is raised. -/
theorem unknown_nutrient_lazy_counterexample :
    nutrients.lookup "Bogus" = none ∧
    absorption_score (mkTraits []) nutrients [] "Bogus" true = Except.ok 0 := by
  constructor
  · simp [nutrients, List.lookup]
  · rw [absorption_lookup_none (by simp [nutrients, List.lookup])]
    simp

/-- C3 amended: `absorption_score` fails (always with `UnknownNutrient`) iff
the nutrient is not a key of the model AND some entry passes the
contribution filter; for a nutrient of the model no input ever fails. -/
theorem unknown_nutrient_error_iff (T : TraitTable)
    (N : List (String × List (String × ℚ))) (v : List (String × Amount))
    (nutrient : String) (nm : Bool) :
    absorption_score T N v nutrient nm = Except.error ScoreError.UnknownNutrient
      ↔ N.lookup nutrient = none ∧ v.any (contribP T) = true := by
  constructor
  · intro h
    cases hN : N.lookup nutrient with
    | some ws =>
      rcases absorption_ok_of_some hN v nm with ⟨r, hr⟩
      rw [hr] at h
      exact absurd h (by simp)
    | none =>
      refine ⟨rfl, ?_⟩
      by_cases ha : v.any (contribP T) = true
      · exact ha
      · rw [absorption_lookup_none hN, if_neg ha] at h
        exact absurd h (by simp)
  · rintro ⟨hN, ha⟩
    rw [absorption_lookup_none hN, if_pos ha]

/-- C6: with `normalize=false` the score is linear in abundance — scaling
every abundance value by `k > 0` scales the result (error or value) by `k`. -/
theorem raw_score_linear_in_abundance (T : TraitTable)
    (N : List (String × List (String × ℚ))) (v : List (String × Amount))
    (nutrient : String) (k : ℚ) (hk : 0 < k) :
    absorption_score T N (scaleVec k v) nutrient false
      = (absorption_score T N v nutrient false).map (fun r => k * r) := by
  cases hN : N.lookup nutrient with
  | some ws =>
    rw [absorption_false_eq hN, absorption_false_eq hN, rawSum_scale hk]
    rfl
  | none =>
    rw [absorption_lookup_none hN, absorption_lookup_none hN,
      any_contrib_scale hk]
    by_cases h : v.any (contribP T) = true
    · rw [if_pos h]
      rfl
    · rw [if_neg h]
      show Except.ok 0 = Except.ok (k * 0)
      rw [mul_zero]

/-- Witness for C6 at a concrete vector and k = 2. -/
theorem raw_score_linear_in_abundance_witness :
    absorption_score (mkTraits ["lactobacillus_sp"]) nutrients
      (scaleVec 2 [("lactobacillus_sp", Amount.val 1)]) "Folate" false
      = (absorption_score (mkTraits ["lactobacillus_sp"]) nutrients
          [("lactobacillus_sp", Amount.val 1)] "Folate" false).map
        (fun r => 2 * r) :=
  raw_score_linear_in_abundance (mkTraits ["lactobacillus_sp"]) nutrients
    [("lactobacillus_sp", Amount.val 1)] "Folate" 2 (by norm_num)

/-- C10: a `nan` cell (non-numeric upstream data) passes the non-null filter
of the denominator, so with `normalize=true` the score collapses to 0.0 no
matter what else the vector holds; with `normalize=false` the `nan` entries
are merely skipped. -/
theorem nan_abundance_behavior (T : TraitTable)
    (N : List (String × List (String × ℚ))) (v : List (String × Amount))
    (nutrient : String) (ws : List (String × ℚ))
    (hws : N.lookup nutrient = some ws)
    (hnan : Amount.nan ∈ v.map Prod.snd) :
    absorption_score T N v nutrient true = Except.ok 0 ∧
    absorption_score T N v nutrient false
      = absorption_score T N (v.filter (fun p => !(p.2 == Amount.nan)))
          nutrient false := by
  refine ⟨absorption_true_nan hws hnan, ?_⟩
  rw [absorption_false_eq hws, absorption_false_eq hws]
  congr 1
  rw [rawSum, rawSum, List.filter_filter]
  have hfun : (fun a : String × Amount => contribP T a && !(a.2 == Amount.nan))
      = contribP T := by
    funext p
    rcases p with ⟨sp, ab⟩
    cases ab with
    | null => simp [contribP, amtContributes]
    | nan => simp [contribP, amtContributes]
    | val q => simp [contribP, amtContributes]
  rw [hfun]

/-- Witness for C10 at a concrete vector holding a positive entry and a
`nan` entry. -/
theorem nan_abundance_behavior_witness :
    absorption_score (mkTraits ["lactobacillus_sp"]) nutrients
      [("lactobacillus_sp", Amount.val 1), ("x", Amount.nan)] "Folate" true
      = Except.ok 0 ∧
    absorption_score (mkTraits ["lactobacillus_sp"]) nutrients
      [("lactobacillus_sp", Amount.val 1), ("x", Amount.nan)] "Folate" false
      = absorption_score (mkTraits ["lactobacillus_sp"]) nutrients
          ([("lactobacillus_sp", Amount.val 1), ("x", Amount.nan)].filter
            (fun p => !(p.2 == Amount.nan))) "Folate" false :=
  nan_abundance_behavior (mkTraits ["lactobacillus_sp"]) nutrients
    [("lactobacillus_sp", Amount.val 1), ("x", Amount.nan)] "Folate"
    [("Vitamin_Biosynthesis", 0.6)] (by simp [nutrients, List.lookup])
    (by simp)

/-- C1 fails on the code: with entries 1 (contributing) and -1/2 (non-null
but non-positive), the strictly-positive total is 1 but the code divides the
raw score 9/25 by the all-non-null total 1/2, returning 18/25, not
9/25 / 1. -/
theorem normalized_denominator_counterexample :
    absorption_score (mkTraits ["lactobacillus_sp"]) nutrients
      [("lactobacillus_sp", Amount.val 1), ("x", Amount.val (-1/2))]
      "Folate" true = Except.ok (18/25) ∧
    absorption_score (mkTraits ["lactobacillus_sp"]) nutrients
      [("lactobacillus_sp", Amount.val 1), ("x", Amount.val (-1/2))]
      "Folate" false = Except.ok (9/25) ∧
    posTotal [("lactobacillus_sp", Amount.val 1), ("x", Amount.val (-1/2))]
      = 1 ∧
    ¬ ((18:ℚ)/25 = 9/25 / 1) := by
  have gg1 : get_genus "lactobacillus_sp" = "lactobacillus" := by decide
  have gg2 : get_genus "x" = "x" := by decide
  refine ⟨?_, ?_, ?_, by norm_num⟩
  · simp [absorption_score, scoreStep, contribP, mkTraits, traitNames,
      traitRowOf, gg1, gg2, genus_traits, default_trait, nutrients,
      amtContributes, amtVal, totalAb, totalStep, List.foldlM, List.lookup,
      Bind.bind, Except.bind, Pure.pure, Except.pure] <;> norm_num
  · simp [absorption_score, scoreStep, contribP, mkTraits, traitNames,
      traitRowOf, gg1, gg2, genus_traits, default_trait, nutrients,
      amtContributes, amtVal, List.foldlM, List.lookup,
      Bind.bind, Except.bind, Pure.pure, Except.pure] <;> norm_num
  · simp [posTotal, amtContributes, amtVal, List.filter_cons] <;> norm_num

/-- C1 amended: null, zero and negative entries are excluded from the raw
numerator, but the normalization denominator keeps every non-null value
(zero and negative included): the normalized score is raw divided by the sum
of all non-null values whenever that sum is positive. -/
theorem normalized_uses_all_non_null_total (T : TraitTable)
    (N : List (String × List (String × ℚ))) (v : List (String × Amount))
    (nutrient : String) (ws : List (String × ℚ))
    (hws : N.lookup nutrient = some ws) (hnan : ∀ p ∈ v, p.2 ≠ Amount.nan)
    (hpos : 0 < nnTotal v) :
    absorption_score T N v nutrient true
      = Except.ok (rawSum T ws v / nnTotal v) ∧
    rawSum T ws v = rawSum T ws (v.filter (fun p => amtContributes p.2)) := by
  constructor
  · rw [absorption_true_eq hws hnan, if_pos hpos]
  · rw [rawSum, rawSum, List.filter_filter]
    have hfun : (fun a : String × Amount => contribP T a && amtContributes a.2)
        = contribP T := by
      funext p
      cases h : amtContributes p.2 <;> simp [contribP, h]
    rw [hfun]

/-- Witness for C1 amended at the counterexample vector (total 1/2 > 0). -/
theorem normalized_uses_all_non_null_total_witness :
    absorption_score (mkTraits ["lactobacillus_sp"]) nutrients
      [("lactobacillus_sp", Amount.val 1), ("x", Amount.val (-1/2))]
      "Folate" true
      = Except.ok (rawSum (mkTraits ["lactobacillus_sp"])
          [("Vitamin_Biosynthesis", 0.6)]
          [("lactobacillus_sp", Amount.val 1), ("x", Amount.val (-1/2))]
        / nnTotal [("lactobacillus_sp", Amount.val 1),
            ("x", Amount.val (-1/2))]) :=
  (normalized_uses_all_non_null_total (mkTraits ["lactobacillus_sp"])
    nutrients [("lactobacillus_sp", Amount.val 1), ("x", Amount.val (-1/2))]
    "Folate" [("Vitamin_Biosynthesis", 0.6)] (by simp [nutrients, List.lookup])
    (by simp)
    (by simp [nnTotal, amtVal, List.filter_cons]; norm_num)).1

/-- C9: the simulation pipeline reports
`pct = change / baseline_score * 100` when the baseline score is nonzero and
the not-a-number marker (no raised error) when it is zero. -/
theorem pct_change_of_simulate (SL : List String)
    (baseline : List (String × ℚ)) (microbe nutrient : String) (delta : ℚ)
    (r : SimResult) (hr : simulate SL baseline microbe nutrient delta = Except.ok r) :
    (r.baseline_score ≠ 0 → r.pct = some (r.change / r.baseline_score * 100)) ∧
    (r.baseline_score = 0 → r.pct = none) := by
  rw [simulate] at hr
  cases h1 : absorption_score (mkTraits SL) nutrients (toAmounts baseline)
      nutrient true with
  | error e =>
    rw [h1, exBindErr] at hr
    exact absurd hr (by simp)
  | ok b =>
    rw [h1, exBindOk] at hr
    cases h2 : absorption_score (mkTraits SL) nutrients
        (toAmounts (simulate_addition baseline microbe delta)) nutrient true with
    | error e =>
      rw [h2, exBindErr] at hr
      exact absurd hr (by simp)
    | ok n =>
      rw [h2, exBindOk] at hr
      have hr2 : SimResult.mk b n (n - b) (pct_change (n - b) b) = r := by
        simpa [pure, Except.pure] using hr
      rw [← hr2]
      constructor
      · intro h0
        show pct_change (n - b) b = _
        rw [pct_change, if_pos h0]
      · intro h0
        show pct_change (n - b) b = none
        rw [pct_change, if_neg (by simpa using h0)]

/-- Witness for C9 on a concrete simulation run with nonzero baseline. -/
theorem pct_change_of_simulate_witness :
    (SimResult.mk (9/25) (9/25) 0 (some 0)).pct
      = some ((SimResult.mk (9/25) (9/25) 0 (some 0)).change
          / (SimResult.mk (9/25) (9/25) 0 (some 0)).baseline_score * 100) :=
  (pct_change_of_simulate ["lactobacillus_sp"] [("lactobacillus_sp", 1)]
    "lactobacillus_sp" "Folate" 1 (SimResult.mk (9/25) (9/25) 0 (some 0))
    (by
      have gg1 : get_genus "lactobacillus_sp" = "lactobacillus" := by decide
      simp [simulate, absorption_score, scoreStep, contribP, mkTraits,
        traitNames, traitRowOf, gg1, genus_traits, default_trait, nutrients,
        amtContributes, amtVal, totalAb, totalStep, simulate_addition,
        toAmounts, pct_change, List.foldlM, List.lookup, Bind.bind,
        Except.bind, Pure.pure, Except.pure]
      norm_num)).1 (by norm_num)


theorem contains_of_mem {SL : List String} {s : String} (h : s ∈ SL) :
    (mkTraits SL).index.contains s = true := by
  simp [mkTraits]
  exact h

theorem qContrib_linear {T : TraitTable} {s : String}
    (hsc : T.index.contains s = true) {c : ℚ}
    (hc : weightSum T s vitaminB12Weights = c) {a : ℚ} (ha : 0 ≤ a) :
    qContrib T vitaminB12Weights (s, a) = a * c := by
  have hmem : s ∈ T.index := by simpa using hsc
  rw [qContrib]
  by_cases h2 : 0 < a
  · rw [if_pos (by simp [hmem, h2]), hc]
  · have ha0 : a = 0 := le_antisymm (not_lt.mp h2) ha
    rw [if_neg (by simp [h2]), ha0, zero_mul]

/-- C8 amended (normalized monotonicity under the forced side conditions). -/
theorem vb12_perturbation_monotone (SL : List String) (v : List (String × ℚ))
    (s : String) (d : ℚ) (hg : get_genus s = "lactobacillus") (hs : s ∈ SL)
    (hd : 0 < d) (hv : ∀ p ∈ v, 0 ≤ p.2)
    (hb : normScoreQ SL v "Vitamin_B12" ≤ 29/50) :
    normScoreQ SL v "Vitamin_B12"
      ≤ normScoreQ SL (simulate_addition v s d) "Vitamin_B12" := by
  have hws : nutrients.lookup "Vitamin_B12" = some vitaminB12Weights := by
    simp [nutrients, vitaminB12Weights, List.lookup]
  have hsc : (mkTraits SL).index.contains s = true := contains_of_mem hs
  have hc : weightSum (mkTraits SL) s vitaminB12Weights = 29/50 :=
    weightSum_lacto SL hg
  rw [normScoreQ_eq hws] at hb
  rw [normScoreQ_eq hws, normScoreQ_eq hws]
  have hS0 : 0 ≤ (v.map Prod.snd).sum := by
    apply List.sum_nonneg
    intro x hx
    rw [List.mem_map] at hx
    rcases hx with ⟨p, hp, rfl⟩
    exact hv p hp
  have hR0 : 0 ≤ (v.map (qContrib (mkTraits SL) vitaminB12Weights)).sum := by
    apply List.sum_nonneg
    intro x hx
    rw [List.mem_map] at hx
    rcases hx with ⟨p, hp, rfl⟩
    exact qContrib_nonneg p (weightSum_vb12_nonneg SL p.1)
  by_cases hmem : v.any (fun p => p.1 == s) = true
  · -- the target species is present: each of its entries moves up by d
    rw [simulate_addition, if_pos hmem]
    have hS' : ((v.map (fun p => if p.1 == s then (p.1, max 0 (p.2 + d))
        else p)).map Prod.snd).sum
        = (v.map Prod.snd).sum + (v.countP (fun p => p.1 == s)) * d := by
      rw [List.map_map]
      apply sum_map_shift
      intro x hx
      by_cases hps : (x.1 == s) = true
      · have hxa := hv x hx
        show (if x.1 == s then (x.1, max 0 (x.2 + d)) else x).2 = _
        rw [if_pos hps, if_pos hps]
        show max 0 (x.2 + d) = x.2 + d
        exact max_eq_right (by linarith)
      · show (if x.1 == s then (x.1, max 0 (x.2 + d)) else x).2 = _
        rw [if_neg hps, if_neg hps, add_zero]
    have hR' : ((v.map (fun p => if p.1 == s then (p.1, max 0 (p.2 + d))
        else p)).map (qContrib (mkTraits SL) vitaminB12Weights)).sum
        = (v.map (qContrib (mkTraits SL) vitaminB12Weights)).sum
          + (v.countP (fun p => p.1 == s)) * (29/50 * d) := by
      rw [List.map_map]
      apply sum_map_shift
      intro x hx
      by_cases hps : (x.1 == s) = true
      · have hxa := hv x hx
        have hx1 : x.1 = s := by simpa using hps
        show qContrib (mkTraits SL) vitaminB12Weights
            (if x.1 == s then (x.1, max 0 (x.2 + d)) else x) = _
        rw [if_pos hps, if_pos hps]
        have hmax : max 0 (x.2 + d) = x.2 + d := max_eq_right (by linarith)
        rw [hmax, hx1, qContrib_linear hsc hc (by linarith)]
        have hold : qContrib (mkTraits SL) vitaminB12Weights x = x.2 * (29/50) := by
          have : x = (x.1, x.2) := rfl
          rw [this, hx1, qContrib_linear hsc hc hxa]
        rw [hold]
        ring
      · show qContrib (mkTraits SL) vitaminB12Weights
            (if x.1 == s then (x.1, max 0 (x.2 + d)) else x) = _
        rw [if_neg hps, if_neg hps, add_zero]
    rw [hS', hR']
    have hn : 0 < v.countP (fun p => p.1 == s) := by
      rw [List.countP_pos_iff]
      simpa [List.any_eq_true] using hmem
    have ht : 0 < ((v.countP (fun p => p.1 == s) : ℚ)) * d :=
      mul_pos (by exact_mod_cast hn) hd
    have hmono := norm_div_mono (v.map (qContrib (mkTraits SL) vitaminB12Weights)).sum
      (v.map Prod.snd).sum ((v.countP (fun p => p.1 == s) : ℚ) * d) (29/50)
      (by norm_num) hS0 ht hR0 hb
    have e : (v.map (qContrib (mkTraits SL) vitaminB12Weights)).sum
        + (v.countP (fun p => p.1 == s) : ℚ) * (29/50 * d)
        = (v.map (qContrib (mkTraits SL) vitaminB12Weights)).sum
          + 29/50 * ((v.countP (fun p => p.1 == s) : ℚ) * d) := by ring
    rw [e]
    exact hmono
  · -- the target species is absent: it is appended with amount d
    rw [simulate_addition, if_neg hmem]
    have hmax : max 0 d = d := max_eq_right hd.le
    have hS' : ((v ++ [(s, max 0 d)]).map Prod.snd).sum
        = (v.map Prod.snd).sum + d := by
      rw [List.map_append, List.sum_append]
      simp [hmax]
    have hR' : ((v ++ [(s, max 0 d)]).map
        (qContrib (mkTraits SL) vitaminB12Weights)).sum
        = (v.map (qContrib (mkTraits SL) vitaminB12Weights)).sum + 29/50 * d := by
      rw [List.map_append, List.sum_append]
      simp only [List.map_cons, List.map_nil, List.sum_cons, List.sum_nil]
      rw [hmax, qContrib_linear hsc hc hd.le]
      ring
    rw [hS', hR']
    exact norm_div_mono _ _ d (29/50) (by norm_num) hS0 hd hR0 hb

/-- C8 fails on the code: a baseline made of a bifidobacterium species (per-
unit Vitamin_B12 contribution 0.65) scores 13/20 normalized; adding
lactobacillus (per-unit 0.58) with positive delta 1/2 drags the normalized
score down to 47/75 < 13/20. -/
theorem vb12_perturbation_counterexample :
    get_genus "lactobacillus_sp" = "lactobacillus" ∧ (0:ℚ) < 1/2 ∧
    normScoreQ ["bifidobacterium_x", "lactobacillus_sp"]
      [("bifidobacterium_x", (1:ℚ))] "Vitamin_B12" = 13/20 ∧
    normScoreQ ["bifidobacterium_x", "lactobacillus_sp"]
      (simulate_addition [("bifidobacterium_x", (1:ℚ))] "lactobacillus_sp"
        (1/2)) "Vitamin_B12" = 47/75 ∧
    ¬ ((13:ℚ)/20 ≤ 47/75) := by
  have gg1 : get_genus "bifidobacterium_x" = "bifidobacterium" := by decide
  have gg2 : get_genus "lactobacillus_sp" = "lactobacillus" := by decide
  refine ⟨gg2, by norm_num, ?_, ?_, by norm_num⟩
  · simp [normScoreQ, absorption_score, scoreStep, contribP, mkTraits,
      traitNames, traitRowOf, gg1, genus_traits, default_trait, nutrients,
      amtContributes, amtVal, totalAb, totalStep, toAmounts, Except.toOption,
      List.foldlM, List.lookup, Bind.bind, Except.bind, Pure.pure,
      Except.pure] <;> norm_num
  · simp [normScoreQ, absorption_score, scoreStep, contribP, mkTraits,
      traitNames, traitRowOf, gg1, gg2, genus_traits, default_trait,
      nutrients, amtContributes, amtVal, totalAb, totalStep, toAmounts,
      simulate_addition, max_def, Except.toOption, List.foldlM, List.lookup,
      Bind.bind, Except.bind, Pure.pure, Except.pure] <;> norm_num

/-- Witness for C8 amended: a pure-lactobacillus baseline (score exactly
29/50) stays monotone under a positive delta. -/
theorem vb12_perturbation_monotone_witness :
    normScoreQ ["lactobacillus_sp"] [("lactobacillus_sp", (1:ℚ))]
      "Vitamin_B12"
      ≤ normScoreQ ["lactobacillus_sp"]
          (simulate_addition [("lactobacillus_sp", (1:ℚ))] "lactobacillus_sp"
            1) "Vitamin_B12" :=
  vb12_perturbation_monotone ["lactobacillus_sp"] [("lactobacillus_sp", 1)]
    "lactobacillus_sp" 1 (by decide) (by simp) (by norm_num)
    (by
      intro p hp
      simp only [List.mem_singleton] at hp
      subst hp
      norm_num)
    (by
      have gg : get_genus "lactobacillus_sp" = "lactobacillus" := by decide
      have hval : normScoreQ ["lactobacillus_sp"] [("lactobacillus_sp", (1:ℚ))]
          "Vitamin_B12" = 29/50 := by
        simp [normScoreQ, absorption_score, scoreStep, contribP, mkTraits,
          traitNames, traitRowOf, gg, genus_traits, default_trait, nutrients,
          amtContributes, amtVal, totalAb, totalStep, toAmounts,
          Except.toOption, List.foldlM, List.lookup, Bind.bind, Except.bind,
          Pure.pure, Except.pure] <;> norm_num
      rw [hval])

end MicrobiomeApp
